import Mathlib

/-!
Verification development for the GIMP MCP gateway orchestration layer
(macro registry, preset registry, batch scheduler, tool dispatchers).

The Python source is shallowly embedded:
  pure data  -> inductive types,
  dict       -> association list with first-match lookup,
  exceptions -> Except String,
  the editing host / tool dispatch reached by the orchestration code
             -> an oracle function (Host) supplied as a parameter,
  registries and the on-disk store -> explicit state records.

Each embedded definition is named after the Python function it models
(file src/gimp_mcp_extensions.py and src/gimp_mcp_server.py).
-/

/-- A JSON-like value as passed around in tool-call argument maps.
Nested lists and dicts are modelled; the claims treat the payloads
opaquely, so no decidable equality instance is needed. -/
inductive Value where
  | str (s : String) : Value
  | num (n : Int) : Value
  | boolean (b : Bool) : Value
  | vlist (xs : List Value) : Value
  | vdict (fields : List (String × Value)) : Value

/-- First-match lookup in an association list, modelling Python dict
indexing `d[k]` returning the value when present (dicts built by the
source never hold duplicate keys). -/
def lookupKey {α : Type} (d : List (String × α)) (k : String) : Option α :=
  match d with
  | [] => none
  | (k1, v) :: rest => if k1 = k then some v else lookupKey rest k

/-- Insert or overwrite a key, modelling Python dict assignment
`d[k] = v` (and a filesystem write of file k, which overwrites). -/
def insertKey {α : Type} (d : List (String × α)) (k : String) (v : α) :
    List (String × α) :=
  match d with
  | [] => [(k, v)]
  | (k1, v1) :: rest =>
      if k1 = k then (k, v) :: rest else (k1, v1) :: insertKey rest k v

/-- The tool-dispatch boundary used by the orchestration code
(`await self.server.call_tool(name, arguments)`): it receives the tool
name and the argument value and either returns a list of text contents
or raises (modelled as `Except.error` carrying `str(e)` of the raised
exception). Each text content is modelled by its text. -/
def Host : Type := Value → Value → Except String (List String)

/-- A raw operation as stored in a macro: an arbitrary dict, expected
(but, before validation, not guaranteed) to hold the keys
"tool" and "arguments". -/
def RawOp : Type := List (String × Value)

/-- The validity test applied by `create_macro` to one operation:
Python `"tool" not in op or "arguments" not in op` rejects, so an
operation is kept exactly when both keys are present. -/
def validOp (op : RawOp) : Bool :=
  (lookupKey op "tool").isSome && (lookupKey op "arguments").isSome

/-- The macro record built by `create_macro`:
`{"name", "description", "operations", "created_at"}`. -/
structure MacroData where
  name : String
  description : String
  operations : List RawOp
  createdAt : Int

/-- The mutable state touched by the macro registry code: the in-memory
`self.macro_registry` (name -> record) and the on-disk store
`~/.config/gimp-mcp/macros` (file stem -> parsed content). -/
structure MacroState where
  registry : List (String × MacroData)
  disk : List (String × MacroData)

/-- The two possible returns of `create_macro`, mirroring its two
`return [TextContent(...)]` statements. -/
inductive CreateMacroResult where
  | created (macroName : String) : CreateMacroResult
  | invalidFormat : CreateMacroResult

/-- The text rendered for each `CreateMacroResult`, as in the source. -/
def createMacroText : CreateMacroResult → String
  | .created n => "Created macro: " ++ n
  | .invalidFormat => "Invalid operation format"

/-- Embedding of `GimpMCPExtensions.create_macro`
(src/gimp_mcp_extensions.py lines 388-412): validate every operation
(returning early on the first operation missing "tool" or "arguments"),
then store the record in the registry and persist it to disk under the
file stem equal to the macro name. `now` stands for the event-loop
timestamp. -/
def create_macro (st : MacroState) (macroName : String) (operations : List RawOp)
    (description : String) (now : Int) : MacroState × CreateMacroResult :=
  if operations.all validOp then
    let md : MacroData := ⟨macroName, description, operations, now⟩
    ({ registry := insertKey st.registry macroName md,
       disk := insertKey st.disk macroName md }, .created macroName)
  else
    (st, .invalidFormat)

/-- Embedding of `save_macro_to_disk` (lines 576-582): writes the file
named by the macro name, overwriting any existing file of that name. -/
def save_macro_to_disk (disk : List (String × MacroData)) (n : String)
    (md : MacroData) : List (String × MacroData) :=
  insertKey disk n md

/-- Embedding of `load_macros_from_disk` (lines 592-605): iterate the
files of the storage root and insert each parsed record into the
registry under the "name" field of the record. -/
def load_macros_from_disk (disk : List (String × MacroData))
    (registry : List (String × MacroData)) : List (String × MacroData) :=
  disk.foldl (fun reg e => insertKey reg e.2.name e.2) registry

/-- One line of a macro run report: the tool value (as interpolated into
the report text), the per-operation success marker (check mark vs cross
in the source text), and the text after the marker. -/
structure OpEntry where
  tool : Value
  ok : Bool
  text : String

/-- Embedding of the operation loop of `run_macro` (lines 424-431).
Returns the report entries together with the trace of dispatched calls
(the calls actually made to `self.server.call_tool`), or an uncaught
exception. Python behaviour reproduced:
  * `operation["tool"]` missing: KeyError is raised inside the `try`,
    and formatting the failure line raises KeyError again inside the
    `except` handler, so it escapes uncaught;
  * `operation["arguments"]` missing: KeyError inside the `try` is
    caught, recorded as a failed entry, and the loop breaks;
  * dispatch raising: caught, recorded as failed, loop breaks;
  * dispatch returning an empty list: `result[0]` raises IndexError
    inside the `try`, caught, recorded as failed, loop breaks;
  * dispatch returning a non-empty list: success entry, loop continues.
-/
def runOps (host : Host) : List RawOp → Except String (List OpEntry × List (Value × Value))
  | [] => .ok ([], [])
  | op :: rest =>
    match lookupKey op "tool" with
    | none => .error "KeyError: tool"
    | some t =>
      match lookupKey op "arguments" with
      | none => .ok ([⟨t, false, "KeyError: arguments"⟩], [])
      | some a =>
        match host t a with
        | .error e => .ok ([⟨t, false, e⟩], [(t, a)])
        | .ok [] => .ok ([⟨t, false, "IndexError: list index out of range"⟩], [(t, a)])
        | .ok (s :: _) =>
          match runOps host rest with
          | .error e => .error e
          | .ok (es, tr) => .ok (⟨t, true, s⟩ :: es, (t, a) :: tr)

/-- The two shapes of the text returned by `run_macro`: the not-found
message, or the executed-report whose body lists the entries. In both
shapes the handler returns normally; there is no overall failure field
anywhere in the returned value. -/
inductive MacroRunOutcome where
  | notFound (macroName : String) : MacroRunOutcome
  | executed (macroName : String) (entries : List OpEntry) : MacroRunOutcome

/-- Embedding of `run_macro` (lines 414-433): look the macro up, run its
operations fail-fast, and return the report (plus the dispatch trace).
An `Except.error` result models an exception escaping `run_macro`
uncaught; every non-exceptional return is `.ok`, whether or not
operations failed. -/
def run_macro (host : Host) (registry : List (String × MacroData))
    (macroName : String) : Except String (List (Value × Value) × MacroRunOutcome) :=
  match lookupKey registry macroName with
  | none => .ok ([], .notFound macroName)
  | some m =>
    match runOps host m.operations with
    | .error e => .error e
    | .ok (entries, tr) => .ok (tr, .executed macroName entries)

/-- The preset record built by `save_preset`:
`{"name", "type", "settings", "created_at"}`. The source stores whatever
value was passed as settings; every apply path of `load_preset` consumes
it as a string-keyed mapping, which is how it is modelled here. -/
structure PresetData where
  name : String
  type : String
  settings : List (String × Value)
  createdAt : Int

/-- Embedding of `load_preset` (src/gimp_mcp_extensions.py lines
453-476). Returns the trace of calls dispatched to the server together
with either the returned text (`.ok`) or an uncaught exception
(`.error`). Python behaviour reproduced:
  * unknown preset name: the not-found text, no dispatch;
  * type "filter": reads `settings["filter_name"]` then
    `settings["parameters"]` (KeyError escapes uncaught when a key is
    absent, before any dispatch), then dispatches `apply_filter` with a
    two-key argument map built from those values;
  * type "adjustment": same with keys "adjustment"/"parameters" and
    tool `adjust_colors`;
  * type "brush": dispatches `set_brush_settings` with the settings map
    passed through whole, unexamined;
  * any other type: no branch matches, nothing is dispatched, and the
    final applied-text is returned exactly as in the recognized cases.
There is no error return for an unrecognized type anywhere in the
source. A raising dispatch escapes uncaught (no try in `load_preset`).
-/
def load_preset (host : Host) (registry : List (String × PresetData))
    (presetName : String) : List (Value × Value) × Except String String :=
  match lookupKey registry presetName with
  | none => ([], .ok ("Preset not found: " ++ presetName))
  | some p =>
    if p.type = "filter" then
      match lookupKey p.settings "filter_name" with
      | none => ([], .error "KeyError: filter_name")
      | some fn =>
        match lookupKey p.settings "parameters" with
        | none => ([], .error "KeyError: parameters")
        | some prm =>
          let args := Value.vdict [("filter_name", fn), ("parameters", prm)]
          match host (Value.str "apply_filter") args with
          | .error e => ([(Value.str "apply_filter", args)], .error e)
          | .ok _ => ([(Value.str "apply_filter", args)], .ok ("Applied preset: " ++ presetName))
    else if p.type = "adjustment" then
      match lookupKey p.settings "adjustment" with
      | none => ([], .error "KeyError: adjustment")
      | some adj =>
        match lookupKey p.settings "parameters" with
        | none => ([], .error "KeyError: parameters")
        | some prm =>
          let args := Value.vdict [("adjustment", adj), ("parameters", prm)]
          match host (Value.str "adjust_colors") args with
          | .error e => ([(Value.str "adjust_colors", args)], .error e)
          | .ok _ => ([(Value.str "adjust_colors", args)], .ok ("Applied preset: " ++ presetName))
    else if p.type = "brush" then
      match host (Value.str "set_brush_settings") (Value.vdict p.settings) with
      | .error e => ([(Value.str "set_brush_settings", Value.vdict p.settings)], .error e)
      | .ok _ =>
          ([(Value.str "set_brush_settings", Value.vdict p.settings)],
           .ok ("Applied preset: " ++ presetName))
    else
      ([], .ok ("Applied preset: " ++ presetName))

/-- One per-file outcome of the batch scheduler, mirroring the two dict
shapes returned by `process_single_file`. -/
inductive FileResult where
  | succeeded (input : String) (output : String) : FileResult
  | failed (input : String) (error : String) : FileResult

/-- The `r.get("success")` test used when aggregating the batch. -/
def isSuccess : FileResult → Bool
  | .succeeded _ _ => true
  | .failed _ _ => false

/-- The "input" field present in both per-file result shapes. -/
def FileResult.input : FileResult → String
  | .succeeded i _ => i
  | .failed i _ => i

/-- The operation loop inside `process_single_file` (lines 523-524):
dispatch each operation in order; the first raised exception (KeyError
on a missing "tool"/"arguments" key, or a raising dispatch) aborts the
loop. Dispatch results are discarded. -/
def runFileOps (host : Host) : List RawOp → Except String Unit
  | [] => .ok ()
  | op :: rest =>
    match lookupKey op "tool" with
    | none => .error "KeyError: tool"
    | some t =>
      match lookupKey op "arguments" with
      | none => .error "KeyError: arguments"
      | some a =>
        match host t a with
        | .error e => .error e
        | .ok _ => runFileOps host rest

/-- Embedding of `process_single_file` (lines 516-533). A resolved file
is modelled by its base name plus the input directory, so that
`str(file_path) = inputDir ++ "/" ++ baseName` and
`file_path.name = baseName`. The whole body sits in one `try`: any
raise from `open_image`, an operation, or `save_image` yields the
failure dict carrying `str(e)`. -/
def process_single_file (host : Host) (inputDir : String) (baseName : String)
    (outputDir : String) (operations : List RawOp) : FileResult :=
  let inputPath := inputDir ++ "/" ++ baseName
  match host (Value.str "open_image") (Value.vdict [("filepath", Value.str inputPath)]) with
  | .error e => .failed inputPath e
  | .ok _ =>
    match runFileOps host operations with
    | .error e => .failed inputPath e
    | .ok _ =>
      let outputPath := outputDir ++ "/" ++ baseName
      match host (Value.str "save_image") (Value.vdict [("filepath", Value.str outputPath)]) with
      | .error e => .failed inputPath e
      | .ok _ => .succeeded inputPath outputPath

/-- Embedding of the sequential mode of `batch_process_advanced` (lines
478-514, `parallel = False` branch): `files` is the resolved file list
(in resolution order, as produced by the glob loop), each file is
processed in that order, and the summary text counts the successes.
Returns the per-file results list together with the summary text. -/
def batch_process_advanced (host : Host) (inputDir : String) (outputDir : String)
    (files : List String) (operations : List RawOp) : List FileResult × String :=
  if files.isEmpty then ([], "No files found matching pattern")
  else
    let results := files.map (fun b => process_single_file host inputDir b outputDir operations)
    (results,
     "Processed " ++ toString (results.countP isSuccess) ++ "/" ++
       toString files.length ++ " files")

/-- The tool names handled by the if/elif chain of the basic dispatcher
`call_tool` in src/gimp_mcp_server.py (lines 287-308). -/
def knownBasicTools : List String :=
  ["create_image", "open_image", "save_image", "create_layer",
   "apply_gaussian_blur", "adjust_brightness_contrast", "adjust_hue_saturation",
   "select_rectangle", "scale_image", "get_image_info", "run_procedure"]

/-- Embedding of the basic dispatcher `call_tool`
(src/gimp_mcp_server.py lines 280-314). `handlers` stands for the
per-tool handler methods, which may raise. The source wraps the whole
dispatch chain in try/except Exception: a raising handler is translated
into an in-band error text; an unknown name is answered in-band without
raising; the GIMP-unavailable guard answers in-band before dispatching.
The embedding therefore never returns `.error`. -/
def call_tool (gimpAvailable : Bool)
    (handlers : String → List (String × Value) → Except String (List String))
    (toolName : String) (arguments : List (String × Value)) :
    Except String (List String) :=
  if gimpAvailable = false then
    .ok ["Error: GIMP not available or not initialized"]
  else if knownBasicTools.contains toolName then
    match handlers toolName arguments with
    | .ok r => .ok r
    | .error e => .ok ["Error: " ++ e]
  else
    .ok ["Unknown tool: " ++ toolName]

/-- The tool names handled by the advanced dispatcher
`call_advanced_tool` in src/gimp_mcp_extensions.py (lines 128-155). -/
def knownAdvancedTools : List String :=
  ["create_animated_gif", "apply_style_transfer", "generate_pattern",
   "create_composite", "extract_foreground", "create_hdr", "panorama_stitch",
   "face_detection", "color_match", "create_macro", "run_macro",
   "save_preset", "load_preset", "batch_process_advanced"]

/-- Embedding of the advanced dispatcher `call_advanced_tool` (lines
124-157). There is no try/except: a raising handler escapes uncaught,
and an unknown name raises `ValueError` past the dispatcher. -/
def call_advanced_tool
    (handlers : String → List (String × Value) → Except String (List String))
    (toolName : String) (arguments : List (String × Value)) :
    Except String (List String) :=
  if knownAdvancedTools.contains toolName then handlers toolName arguments
  else .error ("ValueError: Unknown advanced tool: " ++ toolName)

/-- Phase of one per-file task of the parallel batch branch: each task
awaits the semaphore, runs its file while holding it, and releases. -/
inductive TaskPhase where
  | waiting : TaskPhase
  | active : TaskPhase
  | done : TaskPhase
deriving DecidableEq

/-- State of the parallel scheduler: the phase of each spawned task. -/
structure SchedState where
  phases : List TaskPhase
deriving DecidableEq

/-- The literal admission bound installed by `batch_process_advanced`
in its parallel branch: `asyncio.Semaphore(4)` (line 498). -/
def semCapacity : Nat := 4

/-- The bound as a function of the inbound argument map: the source
reads no concurrency-related key from `args`, so the installed bound is
the constant 4 whatever the caller requests. -/
def batchSemCapacity (_arguments : List (String × Value)) : Nat := semCapacity

/-- The number of tasks currently holding the semaphore. -/
def activeCount (s : SchedState) : Nat :=
  s.phases.countP (fun p => p == TaskPhase.active)

/-- One scheduler transition of the parallel branch: a waiting task may
enter the semaphore only while fewer than `semCapacity` tasks hold it;
an active task may finish, releasing its permit. -/
inductive SchedStep : SchedState → SchedState → Prop where
  | start (s : SchedState) (i : Nat) (hi : s.phases.get? i = some TaskPhase.waiting)
      (hcap : activeCount s < semCapacity) :
      SchedStep s ⟨s.phases.set i TaskPhase.active⟩
  | finish (s : SchedState) (i : Nat) (hi : s.phases.get? i = some TaskPhase.active) :
      SchedStep s ⟨s.phases.set i TaskPhase.done⟩

/-- Reachability of scheduler states. -/
def SchedReach : SchedState → SchedState → Prop :=
  Relation.ReflTransGen SchedStep

/-- The initial scheduler state for `n` spawned per-file tasks. -/
def initSched (n : Nat) : SchedState :=
  ⟨List.replicate n TaskPhase.waiting⟩

/-- A host stub that answers every dispatched call successfully. -/
def hostOkStub : Host := fun _ _ => .ok ["ok"]

/-- A host stub for macro-run tests: the tool named good_tool succeeds
with text "done"; every other dispatch raises with message "boom". -/
def hostFailStub : Host := fun t _ =>
  match t with
  | .str "good_tool" => .ok ["done"]
  | _ => .error "boom"

/-- A host stub for batch tests: opening the file at path in/b.jpg
raises with message "boom"; every other dispatch succeeds. -/
def hostBatchStub : Host := fun t a =>
  match t, a with
  | .str "open_image", .vdict [("filepath", .str p)] =>
      if p = "in/b.jpg" then .error "boom" else .ok ["ok"]
  | _, _ => .ok ["ok"]

/-! ## Helper lemmas about association lists -/

theorem lookupKey_insertKey {α : Type} (d : List (String × α)) (k1 k2 : String) (v : α) :
    lookupKey (insertKey d k1 v) k2 = if k1 = k2 then some v else lookupKey d k2 := by
  induction d with
  | nil => simp [insertKey, lookupKey]
  | cons e rest ih =>
    obtain ⟨ke, ve⟩ := e
    by_cases h1 : ke = k1
    · subst h1
      simp only [insertKey, if_pos rfl, lookupKey]
      by_cases h2 : ke = k2
      · subst h2; simp
      · simp [h2, lookupKey, if_neg h2]
    · simp only [insertKey, if_neg h1, lookupKey]
      by_cases h2 : ke = k2
      · subst h2
        have : k1 ≠ ke := fun h => h1 h.symm
        simp [if_neg this]
      · simp [h2, ih]

theorem lookupKey_eq_none {α : Type} (d : List (String × α)) (k : String)
    (h : ∀ e ∈ d, ¬ e.1 = k) : lookupKey d k = none := by
  induction d with
  | nil => rfl
  | cons x rest ih =>
    obtain ⟨ke, ve⟩ := x
    simp only [lookupKey]
    rw [if_neg (h (ke, ve) (List.mem_cons_self _ _))]
    exact ih fun e he => h e (List.mem_cons_of_mem _ he)

theorem mem_insertKey {α : Type} (d : List (String × α)) (k : String) (v : α)
    (e : String × α) (he : e ∈ insertKey d k v) : e ∈ d ∨ e = (k, v) := by
  induction d with
  | nil =>
    simp only [insertKey, List.mem_singleton] at he
    exact Or.inr he
  | cons x rest ih =>
    obtain ⟨ke, ve⟩ := x
    simp only [insertKey] at he
    by_cases h : ke = k
    · rw [if_pos h] at he
      rcases List.mem_cons.mp he with h1 | h1
      · exact Or.inr h1
      · exact Or.inl (List.mem_cons_of_mem _ h1)
    · rw [if_neg h] at he
      rcases List.mem_cons.mp he with h1 | h1
      · exact Or.inl (by rw [h1]; exact List.mem_cons_self _ _)
      · rcases ih h1 with h2 | h2
        · exact Or.inl (List.mem_cons_of_mem _ h2)
        · exact Or.inr h2

theorem pairwise_insertKey {α : Type} (d : List (String × α)) (k : String) (v : α)
    (hd : d.Pairwise (fun a b => ¬ a.1 = b.1)) :
    (insertKey d k v).Pairwise (fun a b => ¬ a.1 = b.1) := by
  induction d with
  | nil => simp [insertKey]
  | cons x rest ih =>
    obtain ⟨ke, ve⟩ := x
    rw [List.pairwise_cons] at hd
    simp only [insertKey]
    by_cases h : ke = k
    · rw [if_pos h, List.pairwise_cons]
      exact ⟨fun e he => by rw [← h]; exact hd.1 e he, hd.2⟩
    · rw [if_neg h, List.pairwise_cons]
      refine ⟨fun e he => ?_, ih hd.2⟩
      rcases mem_insertKey rest k v e he with h1 | h1
      · exact hd.1 e h1
      · rw [h1]; exact h

theorem consistent_insertKey (d : List (String × MacroData)) (k : String) (v : MacroData)
    (hc : ∀ e ∈ d, e.2.name = e.1) (hv : v.name = k) :
    ∀ e ∈ insertKey d k v, e.2.name = e.1 := by
  intro e he
  rcases mem_insertKey d k v e he with h1 | h1
  · exact hc e h1
  · rw [h1]; exact hv

/-- Loading a consistent, duplicate-free storage root: a name present on
disk resolves to its disk record, and a name absent from disk resolves
in the starting registry. -/
theorem lookupKey_load_macros (disk : List (String × MacroData)) (reg : List (String × MacroData))
    (k : String)
    (hc : ∀ e ∈ disk, e.2.name = e.1)
    (hnd : disk.Pairwise (fun a b => ¬ a.1 = b.1)) :
    lookupKey (load_macros_from_disk disk reg) k
      = match lookupKey disk k with
        | some v => some v
        | none => lookupKey reg k := by
  induction disk generalizing reg with
  | nil => simp [load_macros_from_disk, lookupKey]
  | cons e rest ih =>
    obtain ⟨f, md⟩ := e
    have hname : md.name = f := hc (f, md) (List.mem_cons_self _ _)
    rw [List.pairwise_cons] at hnd
    have step : load_macros_from_disk ((f, md) :: rest) reg
        = load_macros_from_disk rest (insertKey reg md.name md) := rfl
    rw [step, ih (insertKey reg md.name md)
      (fun x hx => hc x (List.mem_cons_of_mem _ hx)) hnd.2]
    by_cases hfk : f = k
    · subst hfk
      have hrest : lookupKey rest f = none :=
        lookupKey_eq_none rest f (fun e he hh => hnd.1 e he hh.symm)
      simp [lookupKey, hrest, lookupKey_insertKey, hname]
    · simp only [lookupKey, if_neg hfk]
      cases hlk : lookupKey rest k with
      | some v => simp [hlk]
      | none => simp [hlk, lookupKey_insertKey, hname, hfk]

/-! ## C4 — create_macro validation -/

/-- C4 counterexample. The claim says creation fails with
InvalidMacroDefinition if and only if some operation lacks BOTH a tool
name and an argument map, and that an operation with a tool name but no
argument map does not by itself make creation fail. The source rejects
when EITHER key is missing: an operations list whose only operation has
a "tool" key but no "arguments" key is rejected, refuting the claim. -/
theorem C4_counterexample :
    ( create_macro ⟨[], []⟩ "m" [[("tool", Value.str "scale_image")]] "" 0).2
      = CreateMacroResult.invalidFormat := rfl

/-- C4 amended: `create_macro` fails with the invalid-format result if
and only if some operation lacks a tool name OR lacks an argument map
(Python `"tool" not in op or "arguments" not in op`); creation succeeds
exactly when every operation carries both keys. -/
theorem C4_create_macro_validation (st : MacroState) (n : String) (ops : List RawOp)
    (d : String) (now : Int) :
    ( create_macro st n ops d now).2 = CreateMacroResult.invalidFormat
      ↔ ∃ op ∈ ops, validOp op = false := by
  constructor
  · intro hfail
    by_cases h : ops.all validOp = true
    · exfalso
      have hcr : ( create_macro st n ops d now).2 = CreateMacroResult.created n := by
        unfold create_macro
        rw [if_pos h]
      rw [hcr] at hfail
      exact CreateMacroResult.noConfusion hfail
    · have h2 : ops.all validOp = false := Bool.eq_false_iff.mpr h
      rw [List.all_eq_false] at h2
      obtain ⟨op, hm, hv⟩ := h2
      exact ⟨op, hm, Bool.eq_false_iff.mpr hv⟩
  · rintro ⟨op, hm, hv⟩
    have h2 : ops.all validOp = false := by
      rw [List.all_eq_false]
      exact ⟨op, hm, by rw [hv]; exact Bool.false_ne_true⟩
    unfold create_macro
    rw [h2]
    simp

/-- C4 witness: the amended equivalence evaluated at a concrete input,
an operation carrying only an "arguments" key. -/
theorem C4_witness :
    ( create_macro ⟨[], []⟩ "m" [[("arguments", Value.vdict [])]] "" 0).2
      = CreateMacroResult.invalidFormat :=
  (C4_create_macro_validation ⟨[], []⟩ "m" [[("arguments", Value.vdict [])]] "" 0).mpr
    ⟨[("arguments", Value.vdict [])], List.mem_singleton.mpr rfl, rfl⟩

/-! ## C9 — create_macro is atomic on validation failure -/

/-- C9: when the operations list contains an operation failing
validation, `create_macro` returns the invalid-format result and leaves
the whole state unchanged: no registry entry is added or overwritten and
nothing is written to disk. -/
theorem C9_create_macro_atomic (st : MacroState) (n : String) (ops : List RawOp)
    (d : String) (now : Int) (h : ∃ op ∈ ops, validOp op = false) :
    create_macro st n ops d now = (st, CreateMacroResult.invalidFormat) := by
  obtain ⟨op, hm, hv⟩ := h
  have h2 : ops.all validOp = false := by
    rw [List.all_eq_false]
    exact ⟨op, hm, by rw [hv]; exact Bool.false_ne_true⟩
  unfold create_macro
  rw [h2]
  simp

/-- C9 witness: a creation attempt with an invalid operation leaves a
concrete non-empty state untouched. -/
theorem C9_witness :
    create_macro ⟨[("old", ⟨"old", "", [], 0⟩)], [("old", ⟨"old", "", [], 0⟩)]⟩
        "old" [[("tool", Value.str "t")]] "overwrite" 7
      = (⟨[("old", ⟨"old", "", [], 0⟩)], [("old", ⟨"old", "", [], 0⟩)]⟩,
         CreateMacroResult.invalidFormat) :=
  C9_create_macro_atomic ⟨[("old", ⟨"old", "", [], 0⟩)], [("old", ⟨"old", "", [], 0⟩)]⟩
    "old" [[("tool", Value.str "t")]] "overwrite" 7
    ⟨[("tool", Value.str "t")], List.mem_singleton.mpr rfl, rfl⟩

/-! ## C5 — macro persist/load round-trip -/

/-- C5: creating a valid macro and then hydrating a fresh registry from
the same storage root yields the created macro under its name: same
name, same description, same operations in the same order (and the same
timestamp). The hypotheses on the storage root hold for any root this
system wrote: each file parses to a record whose "name" field equals the
file stem, and file names are distinct within the directory. -/
theorem C5_macro_roundtrip (st : MacroState) (n : String) (ops : List RawOp)
    (d : String) (now : Int)
    (hvalid : ops.all validOp = true)
    (hc : ∀ e ∈ st.disk, e.2.name = e.1)
    (hnd : st.disk.Pairwise (fun a b => ¬ a.1 = b.1)) :
    lookupKey (load_macros_from_disk (( create_macro st n ops d now).1).disk []) n
      = some ⟨n, d, ops, now⟩ := by
  have hdisk : (( create_macro st n ops d now).1).disk
      = insertKey st.disk n ⟨n, d, ops, now⟩ := by
    unfold create_macro
    rw [if_pos hvalid]
  rw [hdisk,
    lookupKey_load_macros _ [] n
      (consistent_insertKey st.disk n ⟨n, d, ops, now⟩ hc rfl)
      (pairwise_insertKey st.disk n ⟨n, d, ops, now⟩ hnd),
    lookupKey_insertKey]
  simp

/-- C5 witness: round-trip through a storage root already holding an
unrelated macro file. -/
theorem C5_witness :
    lookupKey
      (load_macros_from_disk
        (( create_macro ⟨[], [("other", ⟨"other", "", [], 3⟩)]⟩ "mine"
            [[("tool", Value.str "apply_filter"), ("arguments", Value.vdict [])]]
            "demo" 9).1).disk [])
      "mine"
      = some ⟨"mine", "demo",
              [[("tool", Value.str "apply_filter"), ("arguments", Value.vdict [])]], 9⟩ :=
  C5_macro_roundtrip ⟨[], [("other", ⟨"other", "", [], 3⟩)]⟩ "mine"
    [[("tool", Value.str "apply_filter"), ("arguments", Value.vdict [])]] "demo" 9
    rfl
    (fun e he => by rw [List.mem_singleton] at he; rw [he])
    (List.pairwise_singleton _ _)

/-! ## C6 — sequential batch order -/

theorem process_single_file_input (host : Host) (inputDir baseName outputDir : String)
    (ops : List RawOp) :
    (process_single_file host inputDir baseName outputDir ops).input
      = inputDir ++ "/" ++ baseName := by
  simp only [process_single_file]
  cases host (Value.str "open_image")
      (Value.vdict [("filepath", Value.str (inputDir ++ "/" ++ baseName))]) with
  | error e => rfl
  | ok v =>
    cases runFileOps host ops with
    | error e => rfl
    | ok u =>
      cases host (Value.str "save_image")
          (Value.vdict [("filepath", Value.str (outputDir ++ "/" ++ baseName))]) with
      | error e => rfl
      | ok w => rfl

/-- C6: in the sequential branch the per-file results are exactly the
files processed in resolved order (the result list is the map of the
processing function over the resolved file list, so its order equals the
input order), and the input path of each entry follows the file list
order position by position. Determinism across repeated runs is
definitional: the embedded sequential branch is a pure function of the
host, directories, resolved file list and operations. -/
theorem C6_batch_sequential_order (host : Host) (inputDir outputDir : String)
    (files : List String) (ops : List RawOp) :
    ( batch_process_advanced host inputDir outputDir files ops).1
        = files.map (fun b => process_single_file host inputDir b outputDir ops)
    ∧ (( batch_process_advanced host inputDir outputDir files ops).1).map FileResult.input
        = files.map (fun b => inputDir ++ "/" ++ b) := by
  have h1 : ( batch_process_advanced host inputDir outputDir files ops).1
      = files.map (fun b => process_single_file host inputDir b outputDir ops) := by
    by_cases hf : files = []
    · subst hf; simp [ batch_process_advanced]
    · have hne : files.isEmpty = false := by
        cases files with
        | nil => exact absurd rfl hf
        | cons x xs => rfl
      simp [ batch_process_advanced, hne]
  refine ⟨h1, ?_⟩
  rw [h1, List.map_map]
  apply List.map_congr_left
  intro b _
  exact process_single_file_input host inputDir b outputDir ops

/-! ## C1 — macro fail-fast -/

/-- A fully successful prefix followed by a failing operation: the loop
records the prefix entries, one failed entry for the failing operation,
and dispatches nothing after it (the trace ends at the failing call,
whatever the host would do on the remaining operations). -/
theorem runOps_append_fail (host : Host) (pre : List RawOp) (entries : List OpEntry)
    (calls : List (Value × Value)) (opk : RawOp) (post : List RawOp)
    (tk ak : Value) (e : String)
    (hpre : runOps host pre = .ok (entries, calls))
    (hok : ∀ en ∈ entries, en.ok = true)
    (htool : lookupKey opk "tool" = some tk)
    (hargs : lookupKey opk "arguments" = some ak)
    (hfail : host tk ak = .error e) :
    runOps host (pre ++ opk :: post)
        = .ok (entries ++ [OpEntry.mk tk false e], calls ++ [(tk, ak)])
      ∧ entries.length = pre.length ∧ calls.length = pre.length := by
  induction pre generalizing entries calls with
  | nil =>
    simp only [runOps, Except.ok.injEq, Prod.mk.injEq] at hpre
    obtain ⟨h1, h2⟩ := hpre
    subst h1; subst h2
    refine ⟨?_, rfl, rfl⟩
    simp only [List.nil_append, runOps, htool, hargs, hfail, List.append_nil]
  | cons op rest ih =>
    cases hto : lookupKey op "tool" with
    | none =>
      simp only [runOps, hto] at hpre
      exact Except.noConfusion hpre
    | some t =>
      cases har : lookupKey op "arguments" with
      | none =>
        simp only [runOps, hto, har, Except.ok.injEq, Prod.mk.injEq] at hpre
        obtain ⟨h1, _⟩ := hpre
        subst h1
        exact absurd (hok _ (List.mem_singleton.mpr rfl)) (by simp)
      | some a =>
        cases hh : host t a with
        | error e2 =>
          simp only [runOps, hto, har, hh, Except.ok.injEq, Prod.mk.injEq] at hpre
          obtain ⟨h1, _⟩ := hpre
          subst h1
          exact absurd (hok _ (List.mem_singleton.mpr rfl)) (by simp)
        | ok l =>
          cases l with
          | nil =>
            simp only [runOps, hto, har, hh, Except.ok.injEq, Prod.mk.injEq] at hpre
            obtain ⟨h1, _⟩ := hpre
            subst h1
            exact absurd (hok _ (List.mem_singleton.mpr rfl)) (by simp)
          | cons s ltl =>
            cases hrec : runOps host rest with
            | error e2 =>
              simp only [runOps, hto, har, hh, hrec] at hpre
              exact Except.noConfusion hpre
            | ok pr =>
              obtain ⟨es, tr⟩ := pr
              simp only [runOps, hto, har, hh, hrec, Except.ok.injEq, Prod.mk.injEq] at hpre
              obtain ⟨h1, h2⟩ := hpre
              subst h1; subst h2
              have hok2 : ∀ en ∈ es, en.ok = true :=
                fun en he => hok en (List.mem_cons_of_mem _ he)
              obtain ⟨hrn, hlen1, hlen2⟩ := ih es tr hrec hok2
              refine ⟨?_, by simp [hlen1], by simp [hlen2]⟩
              simp [runOps, hto, har, hh, hrn]

/-- C1 counterexample, aimed at the conjunct "the overall report is
marked failed". A run whose single operation fails returns the normal
`.ok`-wrapped `.executed` report — the same constructor and header shape
as a fully successful run (second conjunct); the per-operation marker of
the failed entry is the only trace of the failure. No field or return
path of `run_macro` marks the overall report failed, and the dispatcher
response built from it is a non-error result. -/
theorem C1_counterexample :
    run_macro hostFailStub
        [("m", ⟨"m", "",
          [[("tool", Value.str "bad_tool"), ("arguments", Value.vdict [])]], 0⟩)] "m"
      = .ok ([(Value.str "bad_tool", Value.vdict [])],
             .executed "m" [OpEntry.mk (Value.str "bad_tool") false "boom"])
    ∧ run_macro hostFailStub
        [("m", ⟨"m", "",
          [[("tool", Value.str "good_tool"), ("arguments", Value.vdict [])]], 0⟩)] "m"
      = .ok ([(Value.str "good_tool", Value.vdict [])],
             .executed "m" [OpEntry.mk (Value.str "good_tool") true "done"]) :=
  ⟨rfl, rfl⟩

/-- C1 amended: if dispatching operation k (1-indexed, here k =
pre.length + 1) raises while all earlier operations succeed, `run_macro`
attempts exactly operations 1..k — the dispatch trace is the k earlier
calls plus the failing call, independent of how the host behaves on
later operations, which are never dispatched — and the report records
exactly k entries whose last is marked failed. The run is returned as a
normal (non-error) `.executed` report: nothing marks the overall report
failed. -/
theorem C1_run_macro_failfast (host : Host) (registry : List (String × MacroData))
    (mname : String) (m : MacroData) (pre post : List RawOp) (opk : RawOp)
    (tk ak : Value) (e : String) (entries : List OpEntry) (calls : List (Value × Value))
    (hm : lookupKey registry mname = some m)
    (hops : m.operations = pre ++ opk :: post)
    (hpre : runOps host pre = .ok (entries, calls))
    (hok : ∀ en ∈ entries, en.ok = true)
    (htool : lookupKey opk "tool" = some tk)
    (hargs : lookupKey opk "arguments" = some ak)
    (hfail : host tk ak = .error e) :
    run_macro host registry mname
        = .ok (calls ++ [(tk, ak)], .executed mname (entries ++ [OpEntry.mk tk false e]))
      ∧ (entries ++ [OpEntry.mk tk false e]).length = pre.length + 1
      ∧ (calls ++ [(tk, ak)]).length = pre.length + 1
      ∧ (entries ++ [OpEntry.mk tk false e]).getLast? = some (OpEntry.mk tk false e) := by
  obtain ⟨hrn, hlen1, hlen2⟩ :=
    runOps_append_fail host pre entries calls opk post tk ak e hpre hok htool hargs hfail
  refine ⟨?_, by simp [hlen1], by simp [hlen2], List.getLast?_concat _⟩
  simp only [ run_macro, hm, hops, hrn]

/-- C1 witness: a two-operation macro whose second operation fails,
evaluated through the amended theorem. -/
theorem C1_witness :
    run_macro hostFailStub
        [("m2", ⟨"m2", "",
          [[("tool", Value.str "good_tool"), ("arguments", Value.vdict [])],
           [("tool", Value.str "bad_tool"), ("arguments", Value.vdict [])]], 0⟩)] "m2"
        = .ok ([(Value.str "good_tool", Value.vdict [])]
                 ++ [(Value.str "bad_tool", Value.vdict [])],
               .executed "m2"
                 ([OpEntry.mk (Value.str "good_tool") true "done"]
                    ++ [OpEntry.mk (Value.str "bad_tool") false "boom"]))
      ∧ ([OpEntry.mk (Value.str "good_tool") true "done"]
           ++ [OpEntry.mk (Value.str "bad_tool") false "boom"]).length
          = ([[("tool", Value.str "good_tool"), ("arguments", Value.vdict [])]] : List RawOp).length + 1
      ∧ ([(Value.str "good_tool", Value.vdict [])]
           ++ [(Value.str "bad_tool", Value.vdict [])]).length
          = ([[("tool", Value.str "good_tool"), ("arguments", Value.vdict [])]] : List RawOp).length + 1
      ∧ ([OpEntry.mk (Value.str "good_tool") true "done"]
           ++ [OpEntry.mk (Value.str "bad_tool") false "boom"]).getLast?
          = some (OpEntry.mk (Value.str "bad_tool") false "boom") :=
  C1_run_macro_failfast hostFailStub
    [("m2", ⟨"m2", "",
      [[("tool", Value.str "good_tool"), ("arguments", Value.vdict [])],
       [("tool", Value.str "bad_tool"), ("arguments", Value.vdict [])]], 0⟩)]
    "m2"
    ⟨"m2", "",
      [[("tool", Value.str "good_tool"), ("arguments", Value.vdict [])],
       [("tool", Value.str "bad_tool"), ("arguments", Value.vdict [])]], 0⟩
    [[("tool", Value.str "good_tool"), ("arguments", Value.vdict [])]]
    []
    [("tool", Value.str "bad_tool"), ("arguments", Value.vdict [])]
    (Value.str "bad_tool") (Value.vdict []) "boom"
    [OpEntry.mk (Value.str "good_tool") true "done"]
    [(Value.str "good_tool", Value.vdict [])]
    rfl rfl rfl
    (fun en he => by rw [List.mem_singleton] at he; rw [he])
    rfl rfl rfl

/-! ## C3 — preset type routing -/

/-- C3 counterexample. Two refutations at concrete inputs:
(1) for an adjustment preset whose settings hold an extra key, the
dispatched argument map is the two-key map rebuilt from
settings["adjustment"] and settings["parameters"], which lacks the
stored key "extra" — the arguments do not equal the stored settings;
(2) for a preset of unrecognized type nothing is dispatched, but the
call returns the same normal applied-preset text as a genuine apply: no
UnsupportedPresetType error (or any error value) exists on this path. -/
theorem C3_counterexample :
    (load_preset hostOkStub
        [("q", ⟨"q", "adjustment",
          [("adjustment", Value.str "bc"), ("parameters", Value.num 5),
           ("extra", Value.num 7)], 0⟩)] "q").1
      = [(Value.str "adjust_colors",
          Value.vdict [("adjustment", Value.str "bc"), ("parameters", Value.num 5)])]
    ∧ lookupKey [("adjustment", Value.str "bc"), ("parameters", Value.num 5)] "extra" = none
    ∧ lookupKey
        [("adjustment", Value.str "bc"), ("parameters", Value.num 5), ("extra", Value.num 7)]
        "extra" = some (Value.num 7)
    ∧ load_preset hostOkStub [("p", ⟨"p", "gradient", [("x", Value.num 1)], 0⟩)] "p"
      = ([], .ok ("Applied preset: " ++ "p")) :=
  ⟨rfl, rfl, rfl, rfl⟩

/-- C3 amended: applying an adjustment preset whose settings contain the
keys "adjustment" and "parameters" dispatches exactly one operation,
the color-adjustment tool `adjust_colors`, whose arguments are the
two-entry map rebuilt from those two stored values (not the whole
settings map); applying a preset of unrecognized type dispatches nothing
at all and returns the normal applied-preset text — no
UnsupportedPresetType error is produced. -/
theorem C3_preset_type_routing :
    (∀ (host : Host) (registry : List (String × PresetData)) (pname : String)
       (p : PresetData) (adj prm : Value),
       lookupKey registry pname = some p →
       p.type = "adjustment" →
       lookupKey p.settings "adjustment" = some adj →
       lookupKey p.settings "parameters" = some prm →
       (load_preset host registry pname).1
         = [(Value.str "adjust_colors",
             Value.vdict [("adjustment", adj), ("parameters", prm)])])
    ∧ (∀ (host : Host) (registry : List (String × PresetData)) (pname : String)
         (p : PresetData),
         lookupKey registry pname = some p →
         ¬ p.type = "filter" → ¬ p.type = "adjustment" → ¬ p.type = "brush" →
         load_preset host registry pname = ([], .ok ("Applied preset: " ++ pname))) := by
  constructor
  · intro host registry pname p adj prm hl ht hadj hprm
    simp only [load_preset, hl]
    rw [ht, if_neg (show ¬ ("adjustment" : String) = "filter" from by decide),
        if_pos (show ("adjustment" : String) = "adjustment" from rfl)]
    simp only [hadj, hprm]
    cases host (Value.str "adjust_colors")
        (Value.vdict [("adjustment", adj), ("parameters", prm)]) with
    | error e => rfl
    | ok v => rfl
  · intro host registry pname p hl h1 h2 h3
    simp only [load_preset, hl]
    rw [if_neg h1, if_neg h2, if_neg h3]

/-- C3 witness: the amended routing evaluated on concrete presets. -/
theorem C3_witness :
    (load_preset hostOkStub
        [("q2", ⟨"q2", "adjustment",
          [("adjustment", Value.str "hue"), ("parameters", Value.num 2)], 0⟩)] "q2").1
      = [(Value.str "adjust_colors",
          Value.vdict [("adjustment", Value.str "hue"), ("parameters", Value.num 2)])]
    ∧ load_preset hostOkStub [("p2", ⟨"p2", "gradient", [], 0⟩)] "p2"
      = ([], .ok ("Applied preset: " ++ "p2")) :=
  ⟨C3_preset_type_routing.1 hostOkStub
      [("q2", ⟨"q2", "adjustment",
        [("adjustment", Value.str "hue"), ("parameters", Value.num 2)], 0⟩)] "q2"
      ⟨"q2", "adjustment",
        [("adjustment", Value.str "hue"), ("parameters", Value.num 2)], 0⟩
      (Value.str "hue") (Value.num 2) rfl rfl rfl rfl,
   C3_preset_type_routing.2 hostOkStub [("p2", ⟨"p2", "gradient", [], 0⟩)] "p2"
      ⟨"p2", "gradient", [], 0⟩ rfl (by decide) (by decide) (by decide)⟩

/-! ## C10 — load_preset key errors -/

/-- C10: a filter preset whose settings lack "filter_name" or
"parameters", and an adjustment preset whose settings lack "adjustment"
or "parameters", make `load_preset` raise an uncaught key-lookup error
before any dispatch (empty trace, `.error` outcome) instead of returning
a structured error result; a brush preset passes its settings map
through whole and unexamined, whatever keys it holds. -/
theorem C10_load_preset_keyerrors :
    (∀ (host : Host) (registry : List (String × PresetData)) (pname : String)
       (p : PresetData),
       lookupKey registry pname = some p → p.type = "filter" →
       (lookupKey p.settings "filter_name" = none ∨
        lookupKey p.settings "parameters" = none) →
       ∃ e, load_preset host registry pname = ([], .error e))
    ∧ (∀ (host : Host) (registry : List (String × PresetData)) (pname : String)
         (p : PresetData),
         lookupKey registry pname = some p → p.type = "adjustment" →
         (lookupKey p.settings "adjustment" = none ∨
          lookupKey p.settings "parameters" = none) →
         ∃ e, load_preset host registry pname = ([], .error e))
    ∧ (∀ (host : Host) (registry : List (String × PresetData)) (pname : String)
         (p : PresetData),
         lookupKey registry pname = some p → p.type = "brush" →
         (load_preset host registry pname).1
           = [(Value.str "set_brush_settings", Value.vdict p.settings)]) := by
  refine ⟨?_, ?_, ?_⟩
  · intro host registry pname p hl ht hmiss
    simp only [load_preset, hl]
    rw [ht, if_pos (show ("filter" : String) = "filter" from rfl)]
    cases hfn : lookupKey p.settings "filter_name" with
    | none => exact ⟨"KeyError: filter_name", rfl⟩
    | some fn =>
      rcases hmiss with h | h
    

      · rw [hfn] at h; exact Option.noConfusion h
      · rw [h]
        exact ⟨"KeyError: parameters", rfl⟩
  · intro host registry pname p hl ht hmiss
    simp only [load_preset, hl]
    rw [ht, if_neg (show ¬ ("adjustment" : String) = "filter" from by decide),
        if_pos (show ("adjustment" : String) = "adjustment" from rfl)]
    cases hadj : lookupKey p.settings "adjustment" with
    | none => exact ⟨"KeyError: adjustment", rfl⟩
    | some adj =>
      rcases hmiss with h | h
      · rw [hadj] at h; exact Option.noConfusion h
      · rw [h]
        exact ⟨"KeyError: parameters", rfl⟩
  · intro host registry pname p hl ht
    simp only [load_preset, hl]
    rw [ht, if_neg (show ¬ ("brush" : String) = "filter" from by decide),
        if_neg (show ¬ ("brush" : String) = "adjustment" from by decide),
        if_pos (show ("brush" : String) = "brush" from rfl)]
    cases host (Value.str "set_brush_settings") (Value.vdict p.settings) with
    | error e => rfl
    | ok v => rfl

/-- C10 witness: a filter preset missing "filter_name" raises, and a
brush preset passes its settings map through unexamined. -/
theorem C10_witness :
    (∃ e, load_preset hostOkStub
        [("f", ⟨"f", "filter", [("parameters", Value.num 1)], 0⟩)] "f"
        = ([], .error e))
    ∧ (load_preset hostOkStub
        [("b", ⟨"b", "brush", [("size", Value.num 3)], 0⟩)] "b").1
        = [(Value.str "set_brush_settings", Value.vdict [("size", Value.num 3)])] :=
  ⟨C10_load_preset_keyerrors.1 hostOkStub
      [("f", ⟨"f", "filter", [("parameters", Value.num 1)], 0⟩)] "f"
      ⟨"f", "filter", [("parameters", Value.num 1)], 0⟩ rfl rfl (Or.inl rfl),
   C10_load_preset_keyerrors.2.2 hostOkStub
      [("b", ⟨"b", "brush", [("size", Value.num 3)], 0⟩)] "b"
      ⟨"b", "brush", [("size", Value.num 3)], 0⟩ rfl rfl⟩

/-! ## C8 — dispatcher boundary -/

/-- C8 counterexample: the advanced dispatcher raises a ValueError past
its boundary for an unknown tool name instead of returning a structured
result, refuting the claim for the dispatch boundary it names. -/
theorem C8_counterexample :
    call_advanced_tool (fun _ _ => Except.ok ["ok"]) "definitely_not_a_tool" []
      = Except.error "ValueError: Unknown advanced tool: definitely_not_a_tool" := rfl

/-- C8 amended: the basic dispatcher `call_tool` returns a structured
(non-raising) result for every inbound call — unknown names are answered
in-band and raising handlers are translated to in-band error texts — but
the advanced dispatcher `call_advanced_tool` raises ValueError for an
unknown name and passes the exception of a raising handler through uncaught. -/
theorem C8_dispatcher_boundary :
    (∀ (g : Bool) (handlers : String → List (String × Value) → Except String (List String))
       (n : String) (a : List (String × Value)),
       ∃ r, call_tool g handlers n a = Except.ok r)
    ∧ (∀ (handlers : String → List (String × Value) → Except String (List String))
         (n : String) (a : List (String × Value)),
         knownAdvancedTools.contains n = false →
         call_advanced_tool handlers n a
           = Except.error ("ValueError: Unknown advanced tool: " ++ n))
    ∧ (∀ (handlers : String → List (String × Value) → Except String (List String))
         (n : String) (a : List (String × Value)),
         knownAdvancedTools.contains n = true →
         call_advanced_tool handlers n a = handlers n a) := by
  refine ⟨?_, ?_, ?_⟩
  · intro g handlers n a
    unfold call_tool
    by_cases hg : g = false
    · rw [if_pos hg]; exact ⟨_, rfl⟩
    · rw [if_neg hg]
      by_cases hk : knownBasicTools.contains n = true
      · rw [if_pos hk]
        cases handlers n a with
        | ok r => exact ⟨r, rfl⟩
        | error e => exact ⟨_, rfl⟩
      · rw [if_neg hk]; exact ⟨_, rfl⟩
  · intro handlers n a h
    unfold call_advanced_tool
    rw [if_neg (by rw [h]; exact Bool.false_ne_true)]
  · intro handlers n a h
    unfold call_advanced_tool
    rw [if_pos h]

/-- C8 witness: a raising handler behind the basic dispatcher is
answered in-band, while the same raising handler behind the advanced
dispatcher escapes, and an unknown advanced name raises ValueError. -/
theorem C8_witness :
    (∃ r, call_tool true (fun _ _ => Except.error "boom") "create_image" []
        = Except.ok r)
    ∧ call_advanced_tool (fun _ _ => Except.ok ["ok"]) "nope" []
        = Except.error ("ValueError: Unknown advanced tool: " ++ "nope")
    ∧ call_advanced_tool (fun _ _ => Except.error "kaboom") "load_preset" []
        = Except.error "kaboom" :=
  ⟨C8_dispatcher_boundary.1 true (fun _ _ => Except.error "boom") "create_image" [],
   C8_dispatcher_boundary.2.1 (fun _ _ => Except.ok ["ok"]) "nope" [] rfl,
   C8_dispatcher_boundary.2.2 (fun _ _ => Except.error "kaboom") "load_preset" [] rfl⟩

/-! ## C2 — batch failure isolation -/

theorem process_single_file_ok (host : Host) (inputDir b outputDir : String)
    (ops : List RawOp)
    (hopen : ∃ v, host (Value.str "open_image")
        (Value.vdict [("filepath", Value.str (inputDir ++ "/" ++ b))]) = .ok v)
    (hrun : runFileOps host ops = .ok ())
    (hsave : ∃ v, host (Value.str "save_image")
        (Value.vdict [("filepath", Value.str (outputDir ++ "/" ++ b))]) = .ok v) :
    process_single_file host inputDir b outputDir ops
      = .succeeded (inputDir ++ "/" ++ b) (outputDir ++ "/" ++ b) := by
  obtain ⟨v1, h1⟩ := hopen
  obtain ⟨v2, h2⟩ := hsave
  simp only [process_single_file, h1, hrun, h2]

theorem process_single_file_openfail (host : Host) (inputDir b outputDir : String)
    (ops : List RawOp) (e : String)
    (h : host (Value.str "open_image")
        (Value.vdict [("filepath", Value.str (inputDir ++ "/" ++ b))]) = .error e) :
    process_single_file host inputDir b outputDir ops
      = .failed (inputDir ++ "/" ++ b) e := by
  simp only [process_single_file, h]

/-- Counting a predicate over a list where exactly one element (by
value, occurring once) falsifies it and every other element satisfies
it. -/
theorem countP_of_single_bad (l : List String) (bad : String) (p : String → Bool)
    (hcount : l.count bad = 1)
    (hgood : ∀ b ∈ l, b ≠ bad → p b = true)
    (hbad : p bad = false) :
    l.countP p = l.length - 1 := by
  induction l with
  | nil => simp at hcount
  | cons x xs ih =>
    by_cases hx : x = bad
    · subst hx
      have h0 : xs.count x = 0 := by
        rw [List.count_cons_self] at hcount
        omega
      have hall : ∀ b ∈ xs, p b = true := by
        intro b hb
        refine hgood b (List.mem_cons_of_mem _ hb) ?_
        intro hbx
        rw [hbx] at hb
        rw [List.count_eq_zero] at h0
        exact h0 hb
      have hlen : xs.countP p = xs.length := List.countP_eq_length.mpr hall
      rw [List.countP_cons, hbad, hlen]
      simp
    · have hpx : p x = true := hgood x (List.mem_cons_self _ _) hx
      have hcnt : xs.count bad = 1 := by
        rw [List.count_cons] at hcount
        have hxb : (x == bad) = false := beq_eq_false_iff_ne.mpr hx
        rw [hxb] at hcount
        simp at hcount
        omega
      have hmem : bad ∈ xs := by
        have : 0 < xs.count bad := by omega
        exact List.count_pos_iff.mp this
      have hlenpos : 1 ≤ xs.length :=
        List.length_pos.mpr (List.ne_nil_of_mem hmem)
      have ihr := ih hcnt (fun b hb => hgood b (List.mem_cons_of_mem _ hb))
      rw [List.countP_cons, hpx, ihr]
      simp
      omega

/-- The per-file results of the sequential branch are the map of the
processing function over the resolved files (both when the file list is
empty and when it is not). -/
theorem batch_results_eq_map (host : Host) (inputDir outputDir : String)
    (files : List String) (ops : List RawOp) :
    ( batch_process_advanced host inputDir outputDir files ops).1
      = files.map (fun b => process_single_file host inputDir b outputDir ops) := by
  by_cases hf : files = []
  · subst hf; simp [ batch_process_advanced]
  · have hne : files.isEmpty = false := by
      cases files with
      | nil => exact absurd rfl hf
      | cons x xs => rfl
    simp [ batch_process_advanced, hne]

/-- C2: a batch over resolved files in which exactly one file fails (the
host raises on opening that file, with message e) and every other call
succeeds completes over all files: the per-file results cover every file
in order, the entry of every other file is a success, that of the failing
file carries success false and the error string e (non-empty whenever
the injected error message is), and the success count is N - 1. -/
theorem C2_batch_isolation (host : Host) (inputDir outputDir : String)
    (files : List String) (ops : List RawOp) (bad : String) (e : String)
    (hcount : files.count bad = 1)
    (hbadopen : host (Value.str "open_image")
        (Value.vdict [("filepath", Value.str (inputDir ++ "/" ++ bad))]) = .error e)
    (herr : e ≠ "")
    (hopen : ∀ b ∈ files, b ≠ bad →
       ∃ v, host (Value.str "open_image")
         (Value.vdict [("filepath", Value.str (inputDir ++ "/" ++ b))]) = .ok v)
    (hrun : runFileOps host ops = .ok ())
    (hsave : ∀ b ∈ files, b ≠ bad →
       ∃ v, host (Value.str "save_image")
         (Value.vdict [("filepath", Value.str (outputDir ++ "/" ++ b))]) = .ok v) :
    ( batch_process_advanced host inputDir outputDir files ops).1
        = files.map (fun b => process_single_file host inputDir b outputDir ops)
      ∧ (( batch_process_advanced host inputDir outputDir files ops).1).length
          = files.length
      ∧ (∀ b ∈ files, b ≠ bad →
           process_single_file host inputDir b outputDir ops
             = .succeeded (inputDir ++ "/" ++ b) (outputDir ++ "/" ++ b))
      ∧ process_single_file host inputDir bad outputDir ops
          = .failed (inputDir ++ "/" ++ bad) e
      ∧ e ≠ ""
      ∧ (( batch_process_advanced host inputDir outputDir files ops).1).countP isSuccess
          = files.length - 1 := by
  have hgoodproc : ∀ b ∈ files, b ≠ bad →
      process_single_file host inputDir b outputDir ops
        = .succeeded (inputDir ++ "/" ++ b) (outputDir ++ "/" ++ b) :=
    fun b hb hne => process_single_file_ok host inputDir b outputDir ops
      (hopen b hb hne) hrun (hsave b hb hne)
  have hbadproc : process_single_file host inputDir bad outputDir ops
      = .failed (inputDir ++ "/" ++ bad) e :=
    process_single_file_openfail host inputDir bad outputDir ops e hbadopen
  have hmap := batch_results_eq_map host inputDir outputDir files ops
  refine ⟨hmap, by rw [hmap]; exact List.length_map _ _, hgoodproc, hbadproc, herr, ?_⟩
  rw [hmap, List.countP_map]
  refine countP_of_single_bad files bad _ hcount ?_ ?_
  · intro b hb hne
    simp only [Function.comp_apply]
    rw [hgoodproc b hb hne]
    rfl
  · simp only [Function.comp_apply]
    rw [hbadproc]
    rfl

/-- C2 witness: two resolved files of which exactly the second fails to
open, run through the injected host stub. -/
theorem C2_witness :
    (( batch_process_advanced hostBatchStub "in" "out" ["a.jpg", "b.jpg"] []).1).countP
        isSuccess
      = (["a.jpg", "b.jpg"] : List String).length - 1 :=
  (C2_batch_isolation hostBatchStub "in" "out" ["a.jpg", "b.jpg"] [] "b.jpg" "boom"
    rfl rfl (by decide)
    (fun b hb hne => by
      rcases List.mem_cons.mp hb with h | h
      · rw [h]; exact ⟨["ok"], rfl⟩
      · exact absurd (List.mem_singleton.mp h) hne)
    rfl
    (fun b hb hne => by
      rcases List.mem_cons.mp hb with h | h
      · rw [h]; exact ⟨["ok"], rfl⟩
      · exact absurd (List.mem_singleton.mp h) hne)).2.2.2.2.2

/-! ## C7 — concurrency bound -/

theorem countP_set_incr {α : Type} (p : α → Bool) (l : List α) (i : Nat) (a b : α)
    (hget : l.get? i = some a) (ha : p a = false) (hb : p b = true) :
    (l.set i b).countP p = l.countP p + 1 := by
  induction l generalizing i with
  | nil => simp at hget
  | cons x xs ih =>
    cases i with
    | zero =>
      injection hget with hxa
      subst hxa
      simp [List.countP_cons, ha, hb]
    | succ n =>
      have hget2 : xs.get? n = some a := hget
      rw [List.set_cons_succ, List.countP_cons, List.countP_cons, ih n hget2]
      omega

theorem countP_set_decr {α : Type} (p : α → Bool) (l : List α) (i : Nat) (a b : α)
    (hget : l.get? i = some a) (ha : p a = true) (hb : p b = false) :
    (l.set i b).countP p + 1 = l.countP p := by
  induction l generalizing i with
  | nil => simp at hget
  | cons x xs ih =>
    cases i with
    | zero =>
      injection hget with hxa
      subst hxa
      simp [List.countP_cons, ha, hb]
    | succ n =>
      have hget2 : xs.get? n = some a := hget
      rw [List.set_cons_succ, List.countP_cons, List.countP_cons]
      have := ih n hget2
      omega

theorem countP_replicate_false {α : Type} (p : α → Bool) (a : α) (n : Nat)
    (ha : p a = false) :
    (List.replicate n a).countP p = 0 := by
  induction n with
  | zero => rfl
  | succ k ih => simp [List.replicate, List.countP_cons, ha, ih]

/-- C7 amended (part proved): the admission gate of the parallel branch
is the literal Semaphore(4): in every scheduler state reachable from the
spawn of n per-file tasks, at most `semCapacity` = 4 tasks are
simultaneously active against the host, for any n. (The configured-k
part of the claim fails: no concurrency parameter exists, see the
counterexample.) -/
theorem C7_parallel_bound (n : Nat) (s : SchedState)
    (h : SchedReach (initSched n) s) :
    activeCount s ≤ semCapacity := by
  induction h with
  | refl =>
    have h0 : activeCount (initSched n) = 0 :=
      countP_replicate_false _ TaskPhase.waiting n rfl
    omega
  | @tail b c hreach hstep ih =>
    cases hstep with
    | start i hi hcap =>
      have hinc := countP_set_incr (fun q => q == TaskPhase.active) b.phases i
        TaskPhase.waiting TaskPhase.active hi rfl rfl
      have h2 : activeCount ⟨b.phases.set i TaskPhase.active⟩
          = activeCount b + 1 := hinc
      omega
    | finish i hi =>
      have hdec := countP_set_decr (fun q => q == TaskPhase.active) b.phases i
        TaskPhase.active TaskPhase.done hi rfl rfl
      have h2 : activeCount ⟨b.phases.set i TaskPhase.done⟩ + 1
          = activeCount b := hdec
      omega

/-- C7 counterexample. The claim promises the bound equals a configured
concurrency k (e.g. k = 2). The source reads no concurrency key from the
argument map — the installed bound is the constant 4 whatever the caller
requests — and with three spawned tasks the scheduler reaches a state
with three simultaneously active host invocations, exceeding a requested
bound of 2. -/
theorem C7_counterexample :
    batchSemCapacity [("concurrency", Value.num 2)] = 4
    ∧ SchedReach (initSched 3)
        ⟨[TaskPhase.active, TaskPhase.active, TaskPhase.active]⟩
    ∧ activeCount ⟨[TaskPhase.active, TaskPhase.active, TaskPhase.active]⟩ = 3
    ∧ ¬ (3 ≤ 2) := by
  refine ⟨rfl, ?_, rfl, by omega⟩
  have step1 : SchedStep ⟨[TaskPhase.waiting, TaskPhase.waiting, TaskPhase.waiting]⟩
      ⟨[TaskPhase.active, TaskPhase.waiting, TaskPhase.waiting]⟩ :=
    SchedStep.start ⟨[TaskPhase.waiting, TaskPhase.waiting, TaskPhase.waiting]⟩ 0
      rfl (by decide)
  have step2 : SchedStep ⟨[TaskPhase.active, TaskPhase.waiting, TaskPhase.waiting]⟩
      ⟨[TaskPhase.active, TaskPhase.active, TaskPhase.waiting]⟩ :=
    SchedStep.start ⟨[TaskPhase.active, TaskPhase.waiting, TaskPhase.waiting]⟩ 1
      rfl (by decide)
  have step3 : SchedStep ⟨[TaskPhase.active, TaskPhase.active, TaskPhase.waiting]⟩
      ⟨[TaskPhase.active, TaskPhase.active, TaskPhase.active]⟩ :=
    SchedStep.start ⟨[TaskPhase.active, TaskPhase.active, TaskPhase.waiting]⟩ 2
      rfl (by decide)
  exact Relation.ReflTransGen.tail
    (Relation.ReflTransGen.tail
      (Relation.ReflTransGen.tail Relation.ReflTransGen.refl step1) step2) step3

/-- C7 witness: the bound evaluated on a concrete reachable state with
one task admitted. -/
theorem C7_witness :
    activeCount ⟨[TaskPhase.active, TaskPhase.waiting]⟩ ≤ semCapacity :=
  C7_parallel_bound 2 ⟨[TaskPhase.active, TaskPhase.waiting]⟩
    (Relation.ReflTransGen.tail Relation.ReflTransGen.refl
      (SchedStep.start (initSched 2) 0 rfl (by decide)))
